import Mathlib

/-!
# scout: `cmd/scout/url.go`

A shallow embedding of the `url` command of scout (`urlCmd.Run`, `clearLine`):

* the sequential set-up phase (argument checks, status-code parsing, option
  construction, banner) as a pure function `setup`;
* the concurrent phase (scanning engine, result relay, progress coalescer,
  display arbiter, shutdown coordinator) as an executable step function
  `step` over an explicit `State`, one `Action` per scheduling choice.

Code outside `url.go` is modelled at its boundary: the Go standard library
(`strconv.Atoi`, `fmt.Printf`), channels and `select` follow the Go language
and library documentation; `url.ParseRequestURI`, `wordlist.FromFile`,
`URLOptions.Inherit` and the tag parser of `tml` are fields of `Env`; the
scanning engine is the environment of the transition system.
-/

namespace Scout

/-! ## Go standard library: `strconv.Atoi` -/

/-- Decimal value of a run of digits, `none` when a character is not `0`..`9`. -/
def digitsValue : Nat → List Char → Option Nat
  | acc, [] => some acc
  | acc, c :: cs =>
    if '0' ≤ c ∧ c ≤ '9' then digitsValue (acc * 10 + (c.toNat - 48)) cs else none

/-- Unsigned part of `strconv.Atoi`: at least one digit, digits only. -/
def parseMagnitude (cs : List Char) : Option Nat :=
  match cs with
  | [] => none
  | _ => digitsValue 0 cs

/-- Go `strconv.Atoi` for a 64-bit `int`: an optional sign followed by one or
more decimal digits, with a value in `[-2^63, 2^63 - 1]`; `none` stands for a
non-nil error. -/
def Atoi (s : String) : Option Int :=
  match s.data with
  | [] => none
  | '-' :: cs =>
    match parseMagnitude cs with
    | some n => if n ≤ 2 ^ 63 then some (-(n : Int)) else none
    | none => none
  | '+' :: cs =>
    match parseMagnitude cs with
    | some n => if n < 2 ^ 63 then some (n : Int) else none
    | none => none
  | cs =>
    match parseMagnitude cs with
    | some n => if n < 2 ^ 63 then some (n : Int) else none
    | none => none

/-! ## Go standard library: `fmt` formatting -/

/-- Operand of a formatting call. -/
inductive Arg where
  | str (s : String)
  | int (n : Int)
deriving DecidableEq, Repr

/-- Flag characters accepted after `%`. -/
def isFlag (c : Char) : Bool :=
  c == '#' || c == '0' || c == '+' || c == '-' || c == ' '

/-- Skips the flags of a verb. -/
def skipFlags : List Char → List Char
  | [] => []
  | c :: cs => if isFlag c then skipFlags cs else c :: cs

/-- Loop of `fmt.parsenum`: value so far, whether a digit was seen, the rest.
A number above 1e6 gives up and consumes the whole input. -/
def parsenumAux : Nat → Bool → List Char → Nat × Bool × List Char
  | num, isnum, [] => (num, isnum, [])
  | num, isnum, c :: cs =>
    if '0' ≤ c ∧ c ≤ '9' then
      if num > 1000000 then (0, false, [])
      else parsenumAux (num * 10 + (c.toNat - 48)) true cs
    else (num, isnum, c :: cs)

/-- Go `fmt.parsenum` on the remaining format. -/
def parsenum (s : List Char) : Nat × Bool × List Char :=
  parsenumAux 0 false s

/-- Go `fmt.parseArgNumber` on a format starting with `[`: the number of bytes
to skip and whether a well-formed `[n]` was read. -/
def parseArgNumber (s : List Char) : Nat × Bool :=
  if s.length < 3 then (1, false)
  else
    match (s.drop 1).indexOf? ']' with
    | none => (1, false)
    | some j =>
      match parsenum ((s.drop 1).take j) with
      | (_, true, []) => (j + 2, true)
      | _ => (j + 2, false)

/-- Go `pp.argNumber` when the call has no operand left to index: an index
`[n]` is skipped and marks the argument number as bad. Returns the rest, the
`afterIndex` flag and the `goodArgNum` flag. -/
def argNumber (s : List Char) (good : Bool) : List Char × Bool × Bool :=
  match s with
  | '[' :: _ =>
    let r := parseArgNumber s
    (s.drop r.1, r.2, false)
  | _ => (s, false, good)

/-- Text written for a verb `v` that finds no operand. -/
def missingArg (v : Char) : List Char := "%!".data ++ [v] ++ "(MISSING)".data

/-- Text written for a verb `v` with a bad argument index. -/
def badArgNum (v : Char) : List Char := "%!".data ++ [v] ++ "(BADINDEX)".data

/-- One verb of `pp.doPrintf` (the text after a `%`) when no operand is
available: flags, argument index, width, precision, verb. A precision is read
only when a character follows the dot (`i+1 < end`); a dot that ends the
format is the verb. Returns the text written and the rest of the format. -/
def verbNoOperand (s0 : List Char) : List Char × List Char :=
  let s1 := skipFlags s0
  let a1 := argNumber s1 true
  -- width
  let w : List Char × List Char × Bool × Bool :=
    match a1.1 with
    | '*' :: t => (t, "%!(BADWIDTH)".data, false, a1.2.2)
    | s =>
      let p := parsenum s
      (p.2.2, [], a1.2.1, a1.2.2 && !(a1.2.1 && p.2.1))
  -- precision
  let q : List Char × List Char × Bool × Bool :=
    match w.1 with
    | '.' :: c :: t =>
      let a2 := argNumber (c :: t) (w.2.2.2 && !w.2.2.1)
      match a2.1 with
      | '*' :: u => (u, w.2.1 ++ "%!(BADPREC)".data, false, a2.2.2)
      | u => ((parsenum u).2.2, w.2.1, a2.2.1, a2.2.2)
    | s => (s, w.2.1, w.2.2.1, w.2.2.2)
  let a3 := if q.2.2.1 then (q.1, true, q.2.2.2) else argNumber q.1 q.2.2.2
  match a3.1 with
  | [] => (q.2.1 ++ "%!(NOVERB)".data, [])
  | v :: t =>
    if v == '%' then (q.2.1 ++ ['%'], t)
    else if a3.2.2 then (q.2.1 ++ missingArg v, t)
    else (q.2.1 ++ badArgNum v, t)

/-- Formatting loop of `fmt` (`pp.doPrintf`). Text outside verbs is copied.
An operand is consumed by the plain verbs `%s` (string operand) and `%d`
(integer operand), the only ones the formats of `url.go` use; every other
verb is formatted as a verb that finds no operand, and operands left over at
the end are not reported. The fuel is the length of
the format: each round consumes at least one character. -/
def doPrintf : Nat → List Char → List Arg → List Char
  | 0, _, _ => []
  | _, [], _ => []
  | n + 1, c :: cs, a =>
    if c == '%' then
      match cs, a with
      | 's' :: t, Arg.str x :: as => x.data ++ doPrintf n t as
      | 'd' :: t, Arg.int x :: as => (toString x).data ++ doPrintf n t as
      | _, _ =>
        let r := verbNoOperand cs
        r.1 ++ doPrintf n r.2 a
    else c :: doPrintf n cs a

/-- Go `fmt.Sprintf(format, a...)`. -/
def Sprintf (format : String) (a : List Arg) : String :=
  String.mk (doPrintf format.length format.data a)

/-! ## Terminal -/

/-- Who writes to the terminal: the coordinator (the `Run` function itself) or
the display arbiter goroutine. -/
inductive Writer where
  | coordinator
  | arbiter
deriving DecidableEq, Repr

/-- What a terminal write is. -/
inductive Kind where
  | erase
  | result
  | progress
  | error
  | banner
  | summary
deriving DecidableEq, Repr

/-- One write to standard output. -/
structure Write where
  who : Writer
  kind : Kind
  text : String
deriving DecidableEq, Repr

/-- The bytes `clearLine` prints: `fmt.Printf("\033[2K\r")`. -/
def clearLineText : String := Sprintf "\x1b[2K\r" []

/-- Source `clearLine`, called by `who`. -/
def clearLine (who : Writer) : Write := ⟨who, Kind.erase, clearLineText⟩

/-! ## External collaborators -/

/-- A parsed `url.URL`, kept as its `String()` rendering. -/
structure URL where
  text : String
deriving DecidableEq, Repr

/-- Source `scan.URLResult`. -/
structure URLResult where
  StatusCode : Int
  URL : URL
deriving DecidableEq, Repr

/-- Source `scan.URLOptions` as built by `Run` (the two channels are part of
the concurrent state). -/
structure URLOptions where
  PositiveStatusCodes : List Int
  TargetURL : URL
  Parallelism : Int
  Extensions : List String
  Filename : String
  SkipSSLVerification : Bool
  Wordlist : Option (List String)
deriving DecidableEq, Repr

/-- Package-level variables and flags read by `Run`. -/
structure Flags where
  debug : Bool
  noColours : Bool
  parallelism : Int
  wordlistPath : String
  skipSSLVerification : Bool
  statusCodes : List String
  filename : String
  extensions : List String
deriving DecidableEq, Repr

/-- Functions of other packages called by `Run`. `tmlParse` is the tag parser
of `tml`, applied to a format string before `fmt` formatting. -/
structure Env where
  ParseRequestURI : String → Except String URL
  FromFile : String → Except String (List String)
  Inherit : URLOptions → URLOptions
  tmlParse : String → String

/-- Go `tml.Sprintf(format, a...)`. -/
def tmlSprintf (env : Env) (format : String) (a : List Arg) : String :=
  Sprintf (env.tmlParse format) a

/-- A write of the coordinator through `tml.Printf` or `tml.Println`. -/
def tmlWrite (env : Env) (kind : Kind) (format : String) (a : List Arg) : Write :=
  ⟨Writer.coordinator, kind, tmlSprintf env format a⟩

/-! ## Set-up phase of `Run` -/

/-- The loop over `statusCodes`: the parsed codes, or the first element that
`strconv.Atoi` rejects. -/
def parseStatusCodes : List String → List Int → Except String (List Int)
  | [], intStatusCodes => Except.ok intStatusCodes
  | code :: rest, intStatusCodes =>
    match Atoi code with
    | none => Except.error code
    | some i => parseStatusCodes rest (intStatusCodes ++ [i])

/-- The banner format of `Run`. -/
def bannerFormat : String :=
  "\n<blue>[</blue><yellow>+</yellow><blue>] Target URL</blue><yellow>      %s\n" ++
  "<blue>[</blue><yellow>+</yellow><blue>] Routines</blue><yellow>        %d \n" ++
  "<blue>[</blue><yellow>+</yellow><blue>] Extensions</blue><yellow>      %s \n" ++
  "<blue>[</blue><yellow>+</yellow><blue>] Positive Codes</blue><yellow>  %s\n\n"

/-- The banner printed before the scanner is created. -/
def banner (env : Env) (fl : Flags) (options : URLOptions) : Write :=
  tmlWrite env Kind.banner bannerFormat
    [Arg.str options.TargetURL.text, Arg.int options.Parallelism,
     Arg.str (String.intercalate "," options.Extensions),
     Arg.str (String.intercalate "," fl.statusCodes)]

/-- How the set-up phase ends. -/
inductive Setup where
  /-- The process ends in `os.Exit(code)` after the writes `out`; nothing else
  has happened. -/
  | exit (code : Nat) (out : List Write)
  /-- The banner `out` is printed, the scanner is created from `options`, the
  three goroutines are started and `scanner.Scan()` is called. -/
  | scan (options : URLOptions) (out : List Write)
deriving DecidableEq, Repr

/-- Source `urlCmd.Run` up to the call of `scanner.Scan()`. Logging set-up
(`log.SetOutput`, the `debug` level) writes nothing to standard output and is
left out; `noColours` acts through `env.tmlParse`. `tml.Println` is written as
the format followed by a newline. -/
def setup (env : Env) (fl : Flags) (args : List String) : Setup :=
  match args with
  | [] =>
    Setup.exit 1 [tmlWrite env Kind.error
      "<bold><red>Error:</red></bold> You must specify a target URL.\n" []]
  | arg0 :: _ =>
    match env.ParseRequestURI arg0 with
    | Except.error err =>
      Setup.exit 1 [tmlWrite env Kind.error
        "<bold><red>Error:</red></bold> Invalid URL: %s\n" [Arg.str err]]
    | Except.ok parsedURL =>
      match parseStatusCodes fl.statusCodes [] with
      | Except.error code =>
        Setup.exit 1 [tmlWrite env Kind.error
          "<bold><red>Error:</red></bold> Invalid status code entered: %s.\n" [Arg.str code]]
      | Except.ok intStatusCodes =>
        let options : URLOptions :=
          { PositiveStatusCodes := intStatusCodes
            TargetURL := parsedURL
            Parallelism := fl.parallelism
            Extensions := fl.extensions
            Filename := fl.filename
            SkipSSLVerification := fl.skipSSLVerification
            Wordlist := none }
        if fl.wordlistPath ≠ "" then
          match env.FromFile fl.wordlistPath with
          | Except.error err =>
            Setup.exit 1 [tmlWrite env Kind.error
              "<bold><red>Error:</red></bold> %s\n" [Arg.str err]]
          | Except.ok wl =>
            let inherited := env.Inherit { options with Wordlist := some wl }
            Setup.scan inherited [banner env fl inherited]
        else
          let inherited := env.Inherit options
          Setup.scan inherited [banner env fl inherited]

/-! ## Concurrent phase of `Run` -/

/-- The line the result relay sends for a result. -/
def resultLine (env : Env) (result : URLResult) : String :=
  tmlSprintf env "<blue>[</blue><yellow>%d</yellow><blue>]</blue> %s\n"
    [Arg.int result.StatusCode, Arg.str result.URL.text]

/-- The line the progress coalescer sends for a notice. -/
def progressLine (env : Env) (uri : String) : String :=
  tmlSprintf env "Checking %s..." [Arg.str uri]

/-- The error line of the scan error branch. -/
def errorWrite (env : Env) (err : String) : Write :=
  tmlWrite env Kind.error "<bold><red>Error:</red></bold> %s\n" [Arg.str err]

/-- The final summary, `n` being `len(results)`. -/
def summaryWrite (env : Env) (n : Nat) : Write :=
  tmlWrite env Kind.summary
    "\n<bold><green>Scan complete. %d results found.</green></bold>\n\n" [Arg.int n]

/-- What `fmt.Printf(output)` writes: `output` is the format, with no operand. -/
def printed (output : String) : String := Sprintf output []

/-- Result relay goroutine: `for result := range resultChan`. -/
inductive Relay where
  /-- Waiting at `range resultChan`. -/
  | ranging
  /-- Blocked at `importantOutputChan <- line`. -/
  | sending (line : String)
  /-- The range loop has ended; about to `close(waitChan)`. -/
  | closing
  | done
deriving DecidableEq, Repr

/-- Progress coalescer goroutine: `for uri := range busyChan`. -/
inductive Coalescer where
  /-- Waiting at `range busyChan`. -/
  | ranging
  /-- Has received `uri`, not yet at the send. -/
  | holding (uri : String)
  /-- Blocked at `genericOutputChan <- line`. -/
  | sending (line : String)
  /-- The range loop has ended. -/
  | done
  /-- The send panicked (closed channel) and the deferred `recover()` ran. -/
  | recovered
deriving DecidableEq, Repr

/-- Display arbiter goroutine. -/
inductive Arbiter where
  /-- At the outer `select`. -/
  | selecting
  /-- Received `output` from `importantOutputChan`; about to `clearLine()`. -/
  | resultClear (output : String)
  /-- About to `fmt.Printf(output)` in the result case. -/
  | resultPrint (output : String)
  /-- At the inner `select` of the `FLUSH` loop. -/
  | flushing
  /-- Received `output` from `genericOutputChan`; about to `clearLine()`. -/
  | progressClear (output : String)
  /-- About to `fmt.Printf(output)` in the progress case. -/
  | progressPrint (output : String)
  /-- Returned; the deferred `close(outChan)` has run. -/
  | returned
deriving DecidableEq, Repr

/-- The coordinator: `Run` from the call of `scanner.Scan()` on. -/
inductive Coordinator where
  /-- Inside `scanner.Scan()`. -/
  | scanning
  /-- Error branch, about to `clearLine()`. -/
  | errClear
  /-- Error branch, about to print the error. -/
  | errPrint
  /-- Error branch, about to `os.Exit(1)`. -/
  | errExit
  /-- The process has exited through `os.Exit(code)`. -/
  | exited (code : Nat)
  /-- At `<-waitChan`. -/
  | awaitWait
  /-- About to `close(genericOutputChan)`. -/
  | closeGeneric
  /-- At `<-outChan`. -/
  | awaitOut
  /-- About to `clearLine()` before the summary. -/
  | sumClear
  /-- About to print the summary. -/
  | sumPrint
  /-- The function `Run` has returned. -/
  | returned
deriving DecidableEq, Repr

/-- State of the concurrent phase. `produced` and `taken` are history
variables: the results the engine has sent on `resultChan`, and the values the
arbiter has received from `genericOutputChan` at its outer `select`. -/
structure State where
  relay : Relay
  coalescer : Coalescer
  arbiter : Arbiter
  main : Coordinator
  /-- The values `results, err` returned by `scanner.Scan()`, once it has. -/
  scan : Option (List URL × Option String)
  /-- Whether `resultChan` (unbuffered) has been closed by the engine. -/
  resultClosed : Bool
  /-- Buffer of `busyChan`. -/
  busyChan : List String
  busyClosed : Bool
  /-- Number of `close(waitChan)` executed. -/
  waitCloses : Nat
  genericClosed : Bool
  outClosed : Bool
  /-- Everything written to standard output so far, oldest first. -/
  out : List Write
  produced : List URLResult
  taken : List String
deriving DecidableEq, Repr

/-- Capacity of `busyChan`: `make(chan string, 0x400)`. -/
def busyCap : Nat := 0x400

/-- One scheduling choice. The `engine*` and `scanReturn` actions belong to the
scanning engine; `selectResult`, `selectWait`, `selectProgress` are the three
cases of the arbiter's outer `select`; the others let a goroutine take its
next step. -/
inductive Action where
  | engineResult (result : URLResult)
  | engineBusy (uri : String)
  | engineCloseResult
  | engineCloseBusy
  | scanReturn (results : List URL) (err : Option String)
  | relay
  | coalescer
  | selectResult
  | selectWait
  | selectProgress
  | arbiter
  | main
deriving DecidableEq, Repr

/-- Whether the process is gone. -/
def Coordinator.isExited : Coordinator → Bool
  | Coordinator.exited _ => true
  | _ => false

/-- Steps of the scanning engine. A send on the unbuffered `resultChan` is a
rendezvous with the relay's `range`; a send on `busyChan` needs room in the
buffer. -/
def stepEngine (env : Env) (a : Action) (s : State) : Option State :=
  match a with
  | Action.engineResult r =>
    match s.relay with
    | Relay.ranging =>
      if s.resultClosed then none
      else some { s with relay := Relay.sending (resultLine env r), produced := s.produced ++ [r] }
    | _ => none
  | Action.engineBusy u =>
    if s.busyClosed then none
    else if busyCap ≤ s.busyChan.length then none
    else some { s with busyChan := s.busyChan ++ [u] }
  | Action.engineCloseResult =>
    if s.resultClosed then none else some { s with resultClosed := true }
  | Action.engineCloseBusy =>
    if s.busyClosed then none else some { s with busyClosed := true }
  | Action.scanReturn results err =>
    match s.main with
    | Coordinator.scanning =>
      match err with
      | some _ => some { s with scan := some (results, err), main := Coordinator.errClear }
      | none => some { s with scan := some (results, err), main := Coordinator.awaitWait }
    | _ => none
  | _ => none

/-- Next step of the result relay. -/
def stepRelay (s : State) : Option State :=
  match s.relay with
  | Relay.ranging => if s.resultClosed then some { s with relay := Relay.closing } else none
  | Relay.closing => some { s with relay := Relay.done, waitCloses := s.waitCloses + 1 }
  | _ => none

/-- Next step of the progress coalescer. A send on the closed
`genericOutputChan` panics; the deferred `recover()` ends the goroutine. -/
def stepCoalescer (env : Env) (s : State) : Option State :=
  match s.coalescer with
  | Coalescer.ranging =>
    match s.busyChan with
    | u :: rest => some { s with busyChan := rest, coalescer := Coalescer.holding u }
    | [] => if s.busyClosed then some { s with coalescer := Coalescer.done } else none
  | Coalescer.holding u => some { s with coalescer := Coalescer.sending (progressLine env u) }
  | Coalescer.sending _ =>
    if s.genericClosed then some { s with coalescer := Coalescer.recovered } else none
  | _ => none

/-- The three cases of the arbiter's outer `select`. Go chooses among the
cases that can proceed; a receive from the closed `genericOutputChan` yields
the empty string. -/
def stepSelect (a : Action) (s : State) : Option State :=
  match s.arbiter with
  | Arbiter.selecting =>
    match a with
    | Action.selectResult =>
      match s.relay with
      | Relay.sending line =>
        some { s with relay := Relay.ranging, arbiter := Arbiter.resultClear line }
      | _ => none
    | Action.selectWait =>
      if 0 < s.waitCloses then some { s with arbiter := Arbiter.returned, outClosed := true }
      else none
    | Action.selectProgress =>
      if s.genericClosed then
        some { s with arbiter := Arbiter.progressClear "", taken := s.taken ++ [""] }
      else
        match s.coalescer with
        | Coalescer.sending line =>
          some { s with
            coalescer := Coalescer.ranging
            arbiter := Arbiter.progressClear line
            taken := s.taken ++ [line] }
        | _ => none
    | _ => none
  | _ => none

/-- Next step of the arbiter away from the outer `select`: the writes of the
two printing cases, and one round of the `FLUSH` loop. -/
def stepArbiter (s : State) : Option State :=
  match s.arbiter with
  | Arbiter.resultClear output =>
    some { s with out := s.out ++ [clearLine Writer.arbiter], arbiter := Arbiter.resultPrint output }
  | Arbiter.resultPrint output =>
    some { s with
      out := s.out ++ [⟨Writer.arbiter, Kind.result, printed output⟩]
      arbiter := Arbiter.flushing }
  | Arbiter.flushing =>
    if s.genericClosed then some { s with arbiter := Arbiter.selecting }
    else
      match s.coalescer with
      | Coalescer.sending str =>
        some { s with
          coalescer := Coalescer.ranging
          arbiter := if str = "" then Arbiter.selecting else Arbiter.flushing }
      | _ => some { s with arbiter := Arbiter.selecting }
  | Arbiter.progressClear output =>
    some { s with out := s.out ++ [clearLine Writer.arbiter], arbiter := Arbiter.progressPrint output }
  | Arbiter.progressPrint output =>
    some { s with
      out := s.out ++ [⟨Writer.arbiter, Kind.progress, printed output⟩]
      arbiter := Arbiter.selecting }
  | _ => none

/-- Next step of the coordinator after `scanner.Scan()` has returned. -/
def stepMain (env : Env) (s : State) : Option State :=
  match s.main with
  | Coordinator.errClear =>
    some { s with out := s.out ++ [clearLine Writer.coordinator], main := Coordinator.errPrint }
  | Coordinator.errPrint =>
    match s.scan with
    | some (_, some err) =>
      some { s with out := s.out ++ [errorWrite env err], main := Coordinator.errExit }
    | _ => none
  | Coordinator.errExit => some { s with main := Coordinator.exited 1 }
  | Coordinator.awaitWait =>
    if 0 < s.waitCloses then some { s with main := Coordinator.closeGeneric } else none
  | Coordinator.closeGeneric =>
    some { s with genericClosed := true, main := Coordinator.awaitOut }
  | Coordinator.awaitOut =>
    if s.outClosed then some { s with main := Coordinator.sumClear } else none
  | Coordinator.sumClear =>
    some { s with out := s.out ++ [clearLine Writer.coordinator], main := Coordinator.sumPrint }
  | Coordinator.sumPrint =>
    match s.scan with
    | some (results, _) =>
      some { s with
        out := s.out ++ [summaryWrite env results.length]
        main := Coordinator.returned }
    | none => none
  | _ => none

/-- One step of the whole program; `none` when the action cannot proceed.
Nothing runs after `os.Exit`. -/
def step (env : Env) (a : Action) (s : State) : Option State :=
  if s.main.isExited then none
  else
    match a with
    | Action.relay => stepRelay s
    | Action.coalescer => stepCoalescer env s
    | Action.selectResult => stepSelect a s
    | Action.selectWait => stepSelect a s
    | Action.selectProgress => stepSelect a s
    | Action.arbiter => stepArbiter s
    | Action.main => stepMain env s
    | _ => stepEngine env a s

/-- Runs a schedule. -/
def run (env : Env) : List Action → State → Option State
  | [], s => some s
  | a :: as, s =>
    match step env a s with
    | some t => run env as t
    | none => none

/-- State at the call of `scanner.Scan()`: channels open and empty, the three
goroutines at the head of their loops, `out` printed so far. -/
def initial (out : List Write) : State :=
  { relay := Relay.ranging
    coalescer := Coalescer.ranging
    arbiter := Arbiter.selecting
    main := Coordinator.scanning
    scan := none
    resultClosed := false
    busyChan := []
    busyClosed := false
    waitCloses := 0
    genericClosed := false
    outClosed := false
    out := out
    produced := []
    taken := [] }

/-- The concurrent phase starts when the set-up phase reaches the scan. -/
def start (env : Env) (fl : Flags) (args : List String) : Option State :=
  match setup env fl args with
  | Setup.scan _ out => some (initial out)
  | Setup.exit _ _ => none

/-- States the program can be in. -/
def Reachable (env : Env) (fl : Flags) (args : List String) (s : State) : Prop :=
  ∃ s0 acts, start env fl args = some s0 ∧ run env acts s0 = some s

/-! ## A concrete environment -/

/-- Tags of `tml` used by `url.go`. -/
def tmlTags : List String := ["bold", "red", "green", "blue", "yellow"]

/-- Removes the opening and closing tags of `tmlTags`, as `tml` does when
formatting is disabled. -/
def stripTags : Nat → List Char → List Char
  | 0, cs => cs
  | _, [] => []
  | n + 1, c :: cs =>
    if c == '<' then
      let name := cs.takeWhile (fun x => x != '>')
      let name1 := match name with
        | '/' :: t => t
        | t => t
      match cs.dropWhile (fun x => x != '>') with
      | _ :: rest =>
        if tmlTags.contains (String.mk name1) then stripTags n rest
        else c :: stripTags n cs
      | [] => c :: stripTags n cs
    else c :: stripTags n cs

/-- An environment with formatting disabled, every URL accepted, no wordlist
and no inherited defaults. -/
def plainEnv : Env :=
  { ParseRequestURI := fun s => Except.ok ⟨s⟩
    FromFile := fun _ => Except.ok []
    Inherit := fun o => o
    tmlParse := fun f => String.mk (stripTags f.length f.data) }

/-- Flags of a run with status codes 200 and 301. -/
def demoFlags : Flags :=
  { debug := false
    noColours := true
    parallelism := 10
    wordlistPath := ""
    skipSSLVerification := false
    statusCodes := ["200", "301"]
    filename := ""
    extensions := ["php"] }

/-! ## Observations on a state -/

/-- The line the relay is blocked sending, if any. -/
def Relay.held : Relay → List String
  | Relay.sending line => [line]
  | _ => []

/-- Whether the relay has left its range loop. -/
def Relay.ended : Relay → Bool
  | Relay.closing => true
  | Relay.done => true
  | _ => false

/-- The result line the arbiter has received and not yet printed, if any. -/
def Arbiter.heldResult : Arbiter → List String
  | Arbiter.resultClear output => [output]
  | Arbiter.resultPrint output => [output]
  | _ => []

/-- The progress line the arbiter has received and not yet printed, if any. -/
def Arbiter.heldProgress : Arbiter → List String
  | Arbiter.progressClear output => [output]
  | Arbiter.progressPrint output => [output]
  | _ => []

/-- Whether the arbiter is between its `clearLine()` and its `fmt.Printf`. -/
def Arbiter.erased : Arbiter → Bool
  | Arbiter.resultPrint _ => true
  | Arbiter.progressPrint _ => true
  | _ => false

/-- Whether the coordinator is on the error branch. -/
def Coordinator.failed : Coordinator → Bool
  | Coordinator.errClear => true
  | Coordinator.errPrint => true
  | Coordinator.errExit => true
  | Coordinator.exited _ => true
  | _ => false

/-- Whether the coordinator has printed the error line. -/
def Coordinator.reported : Coordinator → Bool
  | Coordinator.errExit => true
  | Coordinator.exited _ => true
  | _ => false

/-- Whether the coordinator is past `<-waitChan`. -/
def Coordinator.sawWait : Coordinator → Bool
  | Coordinator.closeGeneric => true
  | Coordinator.awaitOut => true
  | Coordinator.sumClear => true
  | Coordinator.sumPrint => true
  | Coordinator.returned => true
  | _ => false

/-- Whether the coordinator is past `close(genericOutputChan)`. -/
def Coordinator.closedGeneric : Coordinator → Bool
  | Coordinator.awaitOut => true
  | Coordinator.sumClear => true
  | Coordinator.sumPrint => true
  | Coordinator.returned => true
  | _ => false

/-- Whether the coordinator is past `<-outChan`. -/
def Coordinator.sawOut : Coordinator → Bool
  | Coordinator.sumClear => true
  | Coordinator.sumPrint => true
  | Coordinator.returned => true
  | _ => false

/-- Texts of the result writes, oldest first. -/
def resultTexts (out : List Write) : List String :=
  (out.filter (fun w => decide (w.kind = Kind.result))).map Write.text

/-- Texts of the progress writes, oldest first. -/
def progressTexts (out : List Write) : List String :=
  (out.filter (fun w => decide (w.kind = Kind.progress))).map Write.text

/-- The writes made by the arbiter, oldest first. -/
def arbiterWrites (out : List Write) : List Write :=
  out.filter (fun w => decide (w.who = Writer.arbiter))

/-- What the arbiter writes for a result: its line passed through `fmt.Printf`. -/
def written (env : Env) (result : URLResult) : String :=
  printed (resultLine env result)

/-- The value `len(results)` as the summary reads it. -/
def State.resultCount (s : State) : Nat :=
  match s.scan with
  | some (results, _) => results.length
  | none => 0

/-- The error returned by `scanner.Scan()`, if any. -/
def State.err (s : State) : Option String :=
  match s.scan with
  | some (_, err) => err
  | none => none

/-- Every write of the list other than the arbiter's erase comes right after
an erase of the arbiter; `prev` tells whether such an erase precedes the list. -/
def erasedWrites : Bool → List Write → Bool
  | _, [] => true
  | prev, w :: rest =>
    if w = clearLine Writer.arbiter then erasedWrites true rest
    else prev && erasedWrites false rest

/-- Whether the list, preceded by `prev`, ends with the arbiter's erase. -/
def endsErased : Bool → List Write → Bool
  | prev, [] => prev
  | _, w :: rest => endsErased (decide (w = clearLine Writer.arbiter)) rest

/-- The summary writes, oldest first. -/
def summaries (out : List Write) : List Write :=
  out.filter (fun w => decide (w.kind = Kind.summary))

/-! ## The invariant of the concurrent phase -/

/-- Facts that hold in every reachable state. -/
structure Inv (env : Env) (s : State) : Prop where
  results : s.produced.map (written env)
      = resultTexts s.out ++ (s.arbiter.heldResult ++ s.relay.held).map printed
  progress : s.taken.map printed = progressTexts s.out ++ s.arbiter.heldProgress.map printed
  relayEnded : s.relay.ended = true → s.resultClosed = true
  waitZero : s.relay ≠ Relay.done → s.waitCloses = 0
  waitOne : s.relay = Relay.done → s.waitCloses = 1
  outClosed : s.outClosed = decide (s.arbiter = Arbiter.returned)
  arbReturned : s.arbiter = Arbiter.returned → s.relay = Relay.done
  sawWait : s.main.sawWait = true → s.relay = Relay.done
  generic : s.genericClosed = s.main.closedGeneric
  sawOut : s.main.sawOut = true → s.arbiter = Arbiter.returned
  scanning : s.main = Coordinator.scanning → s.scan = none
  scanned : s.main ≠ Coordinator.scanning → s.scan ≠ none
  failed : s.main.failed = true → s.err ≠ none
  succeeded : s.main.failed = false → s.err = none
  exitCode : ∀ c, s.main = Coordinator.exited c → c = 1
  reported : s.main.reported = true → ∀ e, s.err = some e → errorWrite env e ∈ s.out
  noSummary : s.main ≠ Coordinator.returned → summaries s.out = []
  summaryLast : s.main = Coordinator.returned →
      s.out.getLast? = some (summaryWrite env s.resultCount) ∧
      summaries s.out = [summaryWrite env s.resultCount]
  erased : erasedWrites false (arbiterWrites s.out) = true
  pending : s.arbiter.erased = true → endsErased false (arbiterWrites s.out) = true
  recovered : s.coalescer = Coalescer.recovered → s.genericClosed = true

/-- The first status-code argument that `strconv.Atoi` rejects. -/
def firstInvalid (codes : List String) : Option String :=
  codes.find? (fun code => (Atoi code).isNone)

/-! ## Concrete runs -/

/-- Flags of a run whose second status code is not a number. -/
def badFlags : Flags := { demoFlags with statusCodes := ["200", "2x", "y"] }

/-- Options the scanner is created from in the concrete runs. -/
def demoOptions : URLOptions :=
  { PositiveStatusCodes := [200, 301]
    TargetURL := ⟨"http://h"⟩
    Parallelism := 10
    Extensions := ["php"]
    Filename := ""
    SkipSSLVerification := false
    Wordlist := none }

/-- Flags of a run without status-code arguments. -/
def noCodeFlags : Flags := { demoFlags with statusCodes := [] }

/-- An environment whose `Inherit` fills in a status code when the options
carry none. -/
def defaultingEnv : Env :=
  { plainEnv with
    Inherit := fun o =>
      if o.PositiveStatusCodes = [] then { o with PositiveStatusCodes := [200] } else o }

/-- The `PositiveStatusCodes` the scanner is created with, if it is created. -/
def Setup.codes : Setup → Option (List Int)
  | Setup.scan options _ => some options.PositiveStatusCodes
  | Setup.exit _ _ => none

/-- Arguments of the concrete runs. -/
def demoArgs : List String := ["http://h"]

/-- State at the call of `scanner.Scan()` in the concrete runs. -/
def demoInit : State := (start plainEnv demoFlags demoArgs).getD (initial [])

/-- State after a schedule of the concrete run (the initial state if the
schedule cannot be run). -/
def demoState (acts : List Action) : State := (run plainEnv acts demoInit).getD demoInit

/-- First result of the concrete runs. -/
def adminResult : URLResult := ⟨200, ⟨"http://h/admin"⟩⟩

/-- Second result of the concrete runs. -/
def backupResult : URLResult := ⟨301, ⟨"http://h/backup"⟩⟩

/-- A successful scan: one progress notice shown, two results, channels closed
by the engine, `Scan` returning both URLs, then the shutdown sequence. -/
def fullRun : List Action :=
  [Action.engineBusy "http://h/admin", Action.coalescer, Action.coalescer,
   Action.selectProgress, Action.arbiter, Action.arbiter,
   Action.engineResult adminResult, Action.selectResult,
   Action.arbiter, Action.arbiter, Action.arbiter,
   Action.engineResult backupResult, Action.selectResult,
   Action.arbiter, Action.arbiter, Action.arbiter,
   Action.engineCloseBusy, Action.engineCloseResult,
   Action.scanReturn [⟨"http://h/admin"⟩, ⟨"http://h/backup"⟩] none,
   Action.relay, Action.relay, Action.coalescer,
   Action.main, Action.main, Action.selectWait,
   Action.main, Action.main, Action.main]

/-- A successful scan without results in which a progress notice is still
buffered when the engine is done: the arbiter returns on the completion
signal, the coalescer reaches its send, the coordinator closes the channel. -/
def closeRun : List Action :=
  [Action.engineBusy "http://h/admin", Action.engineCloseBusy, Action.engineCloseResult,
   Action.scanReturn [] none,
   Action.relay, Action.relay, Action.selectWait,
   Action.coalescer, Action.coalescer,
   Action.main, Action.main]

/-- The run `closeRun` followed by the coalescer's next step. -/
def panicRun : List Action := closeRun ++ [Action.coalescer]

/-- The run `panicRun` followed by the coordinator passing `<-outChan`. -/
def afterPanicRun : List Action := panicRun ++ [Action.main]

/-- A scan that sends one result on the channel and whose `Scan` returns an
empty list, then the shutdown sequence. -/
def miscountRun : List Action :=
  [Action.engineResult adminResult, Action.selectResult,
   Action.arbiter, Action.arbiter, Action.arbiter,
   Action.engineCloseBusy, Action.engineCloseResult,
   Action.scanReturn [] none,
   Action.relay, Action.relay,
   Action.main, Action.main, Action.selectWait,
   Action.main, Action.main, Action.main]

/-- While the arbiter prints a first progress line, the coalescer gets a second
one ready and the relay a result: the arbiter comes back to its outer `select`
with both ready. -/
def raceRun : List Action :=
  [Action.engineBusy "http://h/a", Action.engineBusy "http://h/b",
   Action.coalescer, Action.coalescer, Action.selectProgress,
   Action.coalescer, Action.coalescer,
   Action.engineResult adminResult,
   Action.arbiter, Action.arbiter]

/-- The run `raceRun` followed by the progress case and its two writes. -/
def raceProgressRun : List Action :=
  raceRun ++ [Action.selectProgress, Action.arbiter, Action.arbiter]

/-- The arbiter has written a result and is in the `FLUSH` loop while the
coalescer is blocked sending a progress line. -/
def flushRun : List Action :=
  [Action.engineBusy "http://h/a", Action.engineResult adminResult,
   Action.selectResult, Action.arbiter,
   Action.coalescer, Action.coalescer, Action.arbiter]

/-- A progress notice for a URL with a percent-encoded space is displayed. -/
def percentRun : List Action :=
  [Action.engineBusy "http://h/a%20b", Action.coalescer, Action.coalescer,
   Action.selectProgress, Action.arbiter, Action.arbiter]

/-- The banner of the concrete runs. -/
def demoBanner : String :=
  "\n[+] Target URL      http://h\n[+] Routines        10 \n" ++
  "[+] Extensions      php \n[+] Positive Codes  200,301\n\n"

/-! ## Basic facts -/

@[simp] theorem clearLine_kind (w : Writer) : (clearLine w).kind = Kind.erase := rfl

@[simp] theorem clearLine_who (w : Writer) : (clearLine w).who = w := rfl

@[simp] theorem errorWrite_kind (env : Env) (e : String) :
    (errorWrite env e).kind = Kind.error := rfl

@[simp] theorem errorWrite_who (env : Env) (e : String) :
    (errorWrite env e).who = Writer.coordinator := rfl

@[simp] theorem summaryWrite_kind (env : Env) (n : Nat) :
    (summaryWrite env n).kind = Kind.summary := rfl

@[simp] theorem summaryWrite_who (env : Env) (n : Nat) :
    (summaryWrite env n).who = Writer.coordinator := rfl

@[simp] theorem banner_kind (env : Env) (fl : Flags) (o : URLOptions) :
    (banner env fl o).kind = Kind.banner := rfl

@[simp] theorem banner_who (env : Env) (fl : Flags) (o : URLOptions) :
    (banner env fl o).who = Writer.coordinator := rfl

theorem resultTexts_append (l : List Write) (w : Write) :
    resultTexts (l ++ [w]) =
      resultTexts l ++ (if w.kind = Kind.result then [w.text] else []) := by
  unfold resultTexts
  by_cases h : w.kind = Kind.result <;> simp [List.filter_append, List.filter_cons, h]

theorem progressTexts_append (l : List Write) (w : Write) :
    progressTexts (l ++ [w]) =
      progressTexts l ++ (if w.kind = Kind.progress then [w.text] else []) := by
  unfold progressTexts
  by_cases h : w.kind = Kind.progress <;> simp [List.filter_append, List.filter_cons, h]

theorem summaries_append (l : List Write) (w : Write) :
    summaries (l ++ [w]) = summaries l ++ (if w.kind = Kind.summary then [w] else []) := by
  unfold summaries
  by_cases h : w.kind = Kind.summary <;> simp [List.filter_append, List.filter_cons, h]

theorem arbiterWrites_append (l : List Write) (w : Write) :
    arbiterWrites (l ++ [w]) =
      arbiterWrites l ++ (if w.who = Writer.arbiter then [w] else []) := by
  unfold arbiterWrites
  by_cases h : w.who = Writer.arbiter <;> simp [List.filter_append, List.filter_cons, h]

theorem endsErased_append (l : List Write) (w : Write) (prev : Bool) :
    endsErased prev (l ++ [w]) = decide (w = clearLine Writer.arbiter) := by
  induction l generalizing prev with
  | nil => simp [endsErased]
  | cons x xs ih => simp [endsErased, ih]

theorem erasedWrites_append (l : List Write) (w : Write) (prev : Bool) :
    erasedWrites prev (l ++ [w]) =
      (erasedWrites prev l && (decide (w = clearLine Writer.arbiter) || endsErased prev l)) := by
  induction l generalizing prev with
  | nil => by_cases h : w = clearLine Writer.arbiter <;> simp [erasedWrites, endsErased, h]
  | cons x xs ih =>
    by_cases hx : x = clearLine Writer.arbiter
    · simp [erasedWrites, endsErased, hx, ih]
    · simp [erasedWrites, endsErased, hx, ih, Bool.and_assoc]

theorem inv_initial (env : Env) (fl : Flags) (o : URLOptions) :
    Inv env (initial [banner env fl o]) := by
  constructor <;>
    simp [initial, resultTexts, progressTexts, arbiterWrites, summaries, Relay.held, Relay.ended,
      Arbiter.heldResult, Arbiter.heldProgress, Arbiter.erased, Coordinator.failed,
      Coordinator.reported, Coordinator.sawWait, Coordinator.closedGeneric,
      Coordinator.sawOut, State.err, erasedWrites]

theorem Inv.relayDone {env : Env} {s : State} (h : Inv env s) :
    0 < s.waitCloses → s.relay = Relay.done := by
  intro hw
  by_contra hne
  have := h.waitZero hne
  omega

theorem inv_stepRelay {env : Env} {s t : State} (h : Inv env s)
    (hs : stepRelay s = some t) : Inv env t := by
  unfold stepRelay at hs
  (repeat' split at hs) <;> simp at hs <;> subst hs <;> constructor <;>
    first
    | exact h.results | exact h.progress | exact h.relayEnded | exact h.waitZero
    | exact h.waitOne | exact h.outClosed | exact h.arbReturned | exact h.sawWait
    | exact h.generic | exact h.sawOut | exact h.scanning | exact h.scanned
    | exact h.failed | exact h.succeeded | exact h.exitCode | exact h.reported
    | exact h.noSummary | exact h.summaryLast | exact h.erased | exact h.pending
    | exact h.recovered
    | (have i0 := h.results
       have i1 := h.relayEnded
       have i2 := h.waitZero
       have i3 := h.waitOne
       have i4 := h.arbReturned
       have i5 := h.sawWait
       intros
       simp_all [Relay.held, Relay.ended])

theorem inv_stepCoalescer {env : Env} {s t : State} (h : Inv env s)
    (hs : stepCoalescer env s = some t) : Inv env t := by
  unfold stepCoalescer at hs
  (repeat' split at hs) <;> simp at hs <;> subst hs <;> constructor <;>
    first
    | exact h.results | exact h.progress | exact h.relayEnded | exact h.waitZero
    | exact h.waitOne | exact h.outClosed | exact h.arbReturned | exact h.sawWait
    | exact h.generic | exact h.sawOut | exact h.scanning | exact h.scanned
    | exact h.failed | exact h.succeeded | exact h.exitCode | exact h.reported
    | exact h.noSummary | exact h.summaryLast | exact h.erased | exact h.pending
    | exact h.recovered
    | (have i0 := h.recovered
       intros
       simp_all)

theorem inv_stepEngine {env : Env} {a : Action} {s t : State} (h : Inv env s)
    (hs : stepEngine env a s = some t) : Inv env t := by
  unfold stepEngine at hs
  split at hs
  · split at hs
    · split at hs
      · simp at hs
      · simp at hs
        subst hs
        constructor <;>
          first
          | exact h.results | exact h.progress | exact h.relayEnded | exact h.waitZero
          | exact h.waitOne | exact h.outClosed | exact h.arbReturned | exact h.sawWait
          | exact h.generic | exact h.sawOut | exact h.scanning | exact h.scanned
          | exact h.failed | exact h.succeeded | exact h.exitCode | exact h.reported
          | exact h.noSummary | exact h.summaryLast | exact h.erased | exact h.pending
          | exact h.recovered
          | (have i0 := h.results
             have i1 := h.waitZero
             have i2 := h.waitOne
             have i3 := h.arbReturned
             have i4 := h.sawWait
             intros
             simp_all [Relay.held, Relay.ended, written])
    · simp at hs
  · split at hs
    · simp at hs
    · split at hs
      · simp at hs
      · simp at hs
        subst hs
        constructor <;>
          first
          | exact h.results | exact h.progress | exact h.relayEnded | exact h.waitZero
          | exact h.waitOne | exact h.outClosed | exact h.arbReturned | exact h.sawWait
          | exact h.generic | exact h.sawOut | exact h.scanning | exact h.scanned
          | exact h.failed | exact h.succeeded | exact h.exitCode | exact h.reported
          | exact h.noSummary | exact h.summaryLast | exact h.erased | exact h.pending
          | exact h.recovered
  · split at hs
    · simp at hs
    · simp at hs
      subst hs
      constructor <;>
        first
        | exact h.results | exact h.progress | exact h.relayEnded | exact h.waitZero
        | exact h.waitOne | exact h.outClosed | exact h.arbReturned | exact h.sawWait
        | exact h.generic | exact h.sawOut | exact h.scanning | exact h.scanned
        | exact h.failed | exact h.succeeded | exact h.exitCode | exact h.reported
        | exact h.noSummary | exact h.summaryLast | exact h.erased | exact h.pending
        | exact h.recovered
        | (intros
           simp_all)
  · split at hs
    · simp at hs
    · simp at hs
      subst hs
      constructor <;>
        first
        | exact h.results | exact h.progress | exact h.relayEnded | exact h.waitZero
        | exact h.waitOne | exact h.outClosed | exact h.arbReturned | exact h.sawWait
        | exact h.generic | exact h.sawOut | exact h.scanning | exact h.scanned
        | exact h.failed | exact h.succeeded | exact h.exitCode | exact h.reported
        | exact h.noSummary | exact h.summaryLast | exact h.erased | exact h.pending
        | exact h.recovered
  · (repeat' split at hs) <;> simp at hs <;> subst hs <;> constructor <;>
      first
      | exact h.results | exact h.progress | exact h.relayEnded | exact h.waitZero
      | exact h.waitOne | exact h.outClosed | exact h.arbReturned | exact h.sawWait
      | exact h.generic | exact h.sawOut | exact h.scanning | exact h.scanned
      | exact h.failed | exact h.succeeded | exact h.exitCode | exact h.reported
      | exact h.noSummary | exact h.summaryLast | exact h.erased | exact h.pending
      | exact h.recovered
      | (have i0 := h.generic
         have i1 := h.scanning
         have i2 := h.scanned
         have i3 := h.noSummary
         intros
         simp_all [Coordinator.failed, Coordinator.reported, Coordinator.sawWait,
           Coordinator.closedGeneric, Coordinator.sawOut, State.err, State.resultCount])
  · simp at hs

theorem inv_stepSelect {env : Env} {a : Action} {s t : State} (h : Inv env s)
    (hs : stepSelect a s = some t) : Inv env t := by
  unfold stepSelect at hs
  (repeat' split at hs) <;> simp at hs <;> subst hs <;> constructor <;>
    first
    | exact h.results | exact h.progress | exact h.relayEnded | exact h.waitZero
    | exact h.waitOne | exact h.outClosed | exact h.arbReturned | exact h.sawWait
    | exact h.generic | exact h.sawOut | exact h.scanning | exact h.scanned
    | exact h.failed | exact h.succeeded | exact h.exitCode | exact h.reported
    | exact h.noSummary | exact h.summaryLast | exact h.erased | exact h.pending
    | exact h.recovered
    | (have i0 := h.results
       have i1 := h.progress
       have i2 := h.relayEnded
       have i3 := h.waitZero
       have i4 := h.waitOne
       have i5 := h.outClosed
       have i6 := h.arbReturned
       have i7 := h.sawWait
       have i8 := h.sawOut
       have i9 := h.relayDone
       intros
       simp_all [Arbiter.heldResult, Arbiter.heldProgress, Arbiter.erased, Relay.held,
         Relay.ended])

theorem inv_stepArbiter {env : Env} {s t : State} (h : Inv env s)
    (hs : stepArbiter s = some t) : Inv env t := by
  unfold stepArbiter at hs
  (repeat' split at hs) <;> simp at hs <;> subst hs <;> constructor <;>
    first
    | exact h.results | exact h.progress | exact h.relayEnded | exact h.waitZero
    | exact h.waitOne | exact h.outClosed | exact h.arbReturned | exact h.sawWait
    | exact h.generic | exact h.sawOut | exact h.scanning | exact h.scanned
    | exact h.failed | exact h.succeeded | exact h.exitCode | exact h.reported
    | exact h.noSummary | exact h.summaryLast | exact h.erased | exact h.pending
    | exact h.recovered
    | (have i0 := h.results
       have i1 := h.progress
       have i2 := h.outClosed
       have i3 := h.sawOut
       have i4 := h.noSummary
       have i5 := h.erased
       have i6 := h.pending
       have i7 := h.reported
       intros
       simp_all [Arbiter.heldResult, Arbiter.heldProgress, Arbiter.erased, Coordinator.sawOut,
         State.err, State.resultCount, resultTexts_append, progressTexts_append,
         arbiterWrites_append, summaries_append, erasedWrites_append, endsErased_append])

theorem inv_stepMain {env : Env} {s t : State} (h : Inv env s)
    (hs : stepMain env s = some t) : Inv env t := by
  unfold stepMain at hs
  (repeat' split at hs) <;> simp at hs <;> subst hs <;> constructor <;>
    first
    | exact h.results | exact h.progress | exact h.relayEnded | exact h.waitZero
    | exact h.waitOne | exact h.outClosed | exact h.arbReturned | exact h.sawWait
    | exact h.generic | exact h.sawOut | exact h.scanning | exact h.scanned
    | exact h.failed | exact h.succeeded | exact h.exitCode | exact h.reported
    | exact h.noSummary | exact h.summaryLast | exact h.erased | exact h.pending
    | exact h.recovered
    | (have i0 := h.sawWait
       have i1 := h.generic
       have i2 := h.sawOut
       have i3 := h.scanning
       have i4 := h.scanned
       have i5 := h.failed
       have i6 := h.succeeded
       have i7 := h.exitCode
       have i8 := h.reported
       have i9 := h.noSummary
       have i10 := h.summaryLast
       have i11 := h.relayDone
       have i12 := h.outClosed
       have i13 := h.erased
       have i14 := h.pending
       have i15 := h.results
       have i16 := h.progress
       intros
       simp_all [Coordinator.failed, Coordinator.reported, Coordinator.sawWait,
         Coordinator.closedGeneric, Coordinator.sawOut, State.err, State.resultCount,
         resultTexts_append, progressTexts_append, arbiterWrites_append, summaries_append])

theorem inv_step {env : Env} {a : Action} {s t : State} (h : Inv env s)
    (hs : step env a s = some t) : Inv env t := by
  unfold step at hs
  split at hs
  · simp at hs
  · cases a
    case relay => exact inv_stepRelay h hs
    case coalescer => exact inv_stepCoalescer h hs
    case selectResult => exact inv_stepSelect h hs
    case selectWait => exact inv_stepSelect h hs
    case selectProgress => exact inv_stepSelect h hs
    case arbiter => exact inv_stepArbiter h hs
    case main => exact inv_stepMain h hs
    all_goals exact inv_stepEngine h hs

theorem inv_run {env : Env} (acts : List Action) {s t : State} (h : Inv env s)
    (hs : run env acts s = some t) : Inv env t := by
  induction acts generalizing s with
  | nil =>
    simp only [run, Option.some.injEq] at hs
    exact hs ▸ h
  | cons a as ih =>
    simp only [run] at hs
    split at hs
    · rename_i u hu
      exact ih (inv_step h hu) hs
    · simp at hs

theorem inv_start {env : Env} {fl : Flags} {args : List String} {s : State}
    (h : start env fl args = some s) : Inv env s := by
  unfold start at h
  split at h
  · rename_i o out hset
    simp only [Option.some.injEq] at h
    subst h
    unfold setup at hset
    (repeat' split at hset) <;> simp at hset <;> obtain ⟨_, rfl⟩ := hset <;> exact inv_initial _ _ _
  · simp at h

theorem inv_reachable {env : Env} {fl : Flags} {args : List String} {s : State}
    (h : Reachable env fl args s) : Inv env s := by
  obtain ⟨s0, acts, h0, hr⟩ := h
  exact inv_run acts (inv_start h0) hr


/-! ## Set-up phase: status codes -/

theorem parseStatusCodes_eq (codes : List String) (acc : List Int) :
    parseStatusCodes codes acc =
      match firstInvalid codes with
      | some code => Except.error code
      | none => Except.ok (acc ++ codes.filterMap Atoi) := by
  induction codes generalizing acc with
  | nil => simp [parseStatusCodes, firstInvalid]
  | cons c cs ih =>
    cases hc : Atoi c with
    | none => simp [parseStatusCodes, firstInvalid, hc]
    | some i =>
      have hi := ih (acc ++ [i])
      simp only [firstInvalid] at hi
      simp [parseStatusCodes, firstInvalid, hc, hi]

theorem map_Atoi_of_firstInvalid_none (codes : List String)
    (h : firstInvalid codes = none) :
    codes.map Atoi = (codes.filterMap Atoi).map some := by
  induction codes with
  | nil => simp
  | cons c cs ih =>
    cases hc : Atoi c with
    | none => simp [firstInvalid, hc] at h
    | some i =>
      have h2 : firstInvalid cs = none := by
        simpa [firstInvalid, hc] using h
      simp [hc, ih h2]

theorem firstInvalid_isSome_of_mem (codes : List String) (code : String)
    (hm : code ∈ codes) (hc : Atoi code = none) : ∃ c, firstInvalid codes = some c := by
  cases h : firstInvalid codes with
  | some c => exact ⟨c, rfl⟩
  | none =>
    have := List.find?_eq_none.mp h code hm
    simp [hc] at this


theorem firstInvalid_of_split (pre post : List String) (code : String)
    (hpre : ∀ c ∈ pre, Atoi c ≠ none) (hcode : Atoi code = none) :
    firstInvalid (pre ++ code :: post) = some code := by
  induction pre with
  | nil => simp [firstInvalid, hcode]
  | cons c cs ih =>
    have hc : Atoi c ≠ none := hpre c (by simp)
    have hcs : ∀ x ∈ cs, Atoi x ≠ none := fun x hx => hpre x (by simp [hx])
    cases h : Atoi c with
    | none => exact absurd h hc
    | some i =>
      have := ih hcs
      simp only [firstInvalid] at this
      simp [firstInvalid, h, this]

theorem setup_of_firstInvalid (env : Env) (fl : Flags) (arg0 : String) (rest : List String)
    (parsedURL : URL) (code : String)
    (hurl : env.ParseRequestURI arg0 = Except.ok parsedURL)
    (hcode : firstInvalid fl.statusCodes = some code) :
    setup env fl (arg0 :: rest) = Setup.exit 1 [tmlWrite env Kind.error
      "<bold><red>Error:</red></bold> Invalid status code entered: %s.\n" [Arg.str code]] := by
  simp [setup, hurl, parseStatusCodes_eq, hcode]

theorem setup_scan_options (env : Env) (fl : Flags) (args : List String)
    (options : URLOptions) (out : List Write)
    (h : setup env fl args = Setup.scan options out) :
    ∃ arg0 rest parsedURL ints wordlist,
      args = arg0 :: rest ∧ env.ParseRequestURI arg0 = Except.ok parsedURL ∧
      fl.statusCodes.map Atoi = ints.map some ∧
      options = env.Inherit
        { PositiveStatusCodes := ints
          TargetURL := parsedURL
          Parallelism := fl.parallelism
          Extensions := fl.extensions
          Filename := fl.filename
          SkipSSLVerification := fl.skipSSLVerification
          Wordlist := wordlist } ∧
      out = [banner env fl options] := by
  cases args with
  | nil => simp [setup] at h
  | cons arg0 rest =>
    cases hp : env.ParseRequestURI arg0 with
    | error e => simp [setup, hp] at h
    | ok parsedURL =>
      cases hf : firstInvalid fl.statusCodes with
      | some c => simp [setup, hp, parseStatusCodes_eq, hf] at h
      | none =>
        have hm := map_Atoi_of_firstInvalid_none _ hf
        simp only [setup, hp, parseStatusCodes_eq, hf, List.nil_append] at h
        split at h
        · split at h
          · simp at h
          · simp only [Setup.scan.injEq] at h
            exact ⟨arg0, rest, parsedURL, _, _, rfl, hp, hm, h.1.symm, by rw [← h.2, h.1]⟩
        · simp only [Setup.scan.injEq] at h
          exact ⟨arg0, rest, parsedURL, _, _, rfl, hp, hm, h.1.symm, by rw [← h.2, h.1]⟩

theorem setup_exit_of_invalid (env : Env) (fl : Flags) (args : List String) (code : String)
    (hcode : firstInvalid fl.statusCodes = some code) :
    ∃ w, setup env fl args = Setup.exit 1 [w] ∧ w.kind = Kind.error := by
  unfold setup
  split
  · exact ⟨_, rfl, rfl⟩
  · split
    · exact ⟨_, rfl, rfl⟩
    · rw [parseStatusCodes_eq]
      simp only [hcode]
      exact ⟨_, rfl, rfl⟩

/-- C4 (amended): if some status-code argument is rejected by `strconv.Atoi`,
`Run` ends in `os.Exit(1)` having written a single error line and nothing else
(no banner, no scanner, no goroutine: the concurrent phase never starts). That
line names the first rejected element when the target URL argument is present
and parses; the URL checks come first. Whenever the scanner is created, the
URL argument was present and parsed, every status-code argument was accepted,
and the scanner's options are `options.Inherit()` applied to the options that
`Run` builds, whose `PositiveStatusCodes` are the parsed arguments, same
length and same order; they are the `PositiveStatusCodes` the engine receives
when `Inherit` leaves that field as it is. -/
theorem C4_status_codes_when_url_parses (env : Env) (fl : Flags) (args : List String) :
    ((∃ code ∈ fl.statusCodes, Atoi code = none) →
      ∃ w, setup env fl args = Setup.exit 1 [w] ∧ w.kind = Kind.error ∧
        start env fl args = none) ∧
    (∀ arg0 rest parsedURL pre code post, args = arg0 :: rest →
      env.ParseRequestURI arg0 = Except.ok parsedURL →
      fl.statusCodes = pre ++ code :: post →
      (∀ c ∈ pre, Atoi c ≠ none) → Atoi code = none →
      setup env fl args = Setup.exit 1 [tmlWrite env Kind.error
        "<bold><red>Error:</red></bold> Invalid status code entered: %s.\n" [Arg.str code]]) ∧
    (∀ options out, setup env fl args = Setup.scan options out →
      ∃ arg0 rest parsedURL ints wordlist,
        args = arg0 :: rest ∧ env.ParseRequestURI arg0 = Except.ok parsedURL ∧
        fl.statusCodes.map Atoi = ints.map some ∧
        options = env.Inherit
          { PositiveStatusCodes := ints
            TargetURL := parsedURL
            Parallelism := fl.parallelism
            Extensions := fl.extensions
            Filename := fl.filename
            SkipSSLVerification := fl.skipSSLVerification
            Wordlist := wordlist } ∧
        out = [banner env fl options]) ∧
    ((∀ o, (env.Inherit o).PositiveStatusCodes = o.PositiveStatusCodes) →
      ∀ options out, setup env fl args = Setup.scan options out →
        fl.statusCodes.map Atoi = options.PositiveStatusCodes.map some) := by
  refine ⟨?_, ?_, ?_, ?_⟩
  · rintro ⟨code, hm, hc⟩
    obtain ⟨c, hfirst⟩ := firstInvalid_isSome_of_mem _ _ hm hc
    obtain ⟨w, hw, hk⟩ := setup_exit_of_invalid env fl args c hfirst
    exact ⟨w, hw, hk, by simp [start, hw]⟩
  · intro arg0 rest parsedURL pre code post hargs hurl hsplit hpre hcode
    subst hargs
    have hfirst : firstInvalid fl.statusCodes = some code := by
      rw [hsplit]
      exact firstInvalid_of_split pre post code hpre hcode
    exact setup_of_firstInvalid env fl arg0 rest parsedURL code hurl hfirst
  · intro options out h
    exact setup_scan_options env fl args options out h
  · intro hkeep options out h
    obtain ⟨_, _, _, ints, _, _, _, hm, hopt, _⟩ := setup_scan_options env fl args options out h
    rw [hopt, hkeep]
    exact hm

/-! ## Results: order, loss, summary -/

theorem mem_summaries {out : List Write} {w : Write} (hw : w ∈ out)
    (hk : w.kind = Kind.summary) : w ∈ summaries out := by
  simp [summaries, hw, hk]

theorem Inv.returned_of_summary {env : Env} {s : State} (inv : Inv env s) {w : Write}
    (hw : w ∈ s.out) (hk : w.kind = Kind.summary) :
    s.main = Coordinator.returned ∧ w = summaryWrite env s.resultCount := by
  have hmem := mem_summaries hw hk
  have hmain : s.main = Coordinator.returned := by
    by_contra hne
    rw [inv.noSummary hne] at hmem
    simp at hmem
  refine ⟨hmain, ?_⟩
  rw [(inv.summaryLast hmain).2] at hmem
  simpa using hmem

theorem Inv.all_written {env : Env} {s : State} (inv : Inv env s)
    (ha : s.arbiter = Arbiter.returned) :
    resultTexts s.out = s.produced.map (written env) := by
  have h := inv.results
  rw [ha, inv.arbReturned ha] at h
  simpa [Arbiter.heldResult, Relay.held] using h.symm

theorem Coordinator.sawWait_of_closedGeneric (m : Coordinator)
    (h : m.closedGeneric = true) : m.sawWait = true := by
  cases m <;> simp_all [Coordinator.closedGeneric, Coordinator.sawWait]

theorem Coordinator.closedGeneric_of_sawOut (m : Coordinator)
    (h : m.sawOut = true) : m.closedGeneric = true := by
  cases m <;> simp_all [Coordinator.closedGeneric, Coordinator.sawOut]

theorem Inv.waitCloses_le {env : Env} {s : State} (inv : Inv env s) : s.waitCloses ≤ 1 := by
  by_cases hd : s.relay = Relay.done
  · rw [inv.waitOne hd]
  · rw [inv.waitZero hd]
    omega

theorem step_none_of_arbiter_returned (env : Env) (s : State)
    (ha : s.arbiter = Arbiter.returned) (a : Action)
    (hact : a = Action.selectResult ∨ a = Action.selectWait ∨ a = Action.selectProgress ∨
      a = Action.arbiter) : step env a s = none := by
  rcases hact with rfl | rfl | rfl | rfl <;>
    simp [step, stepSelect, stepArbiter, ha]

/-- C8: `waitChan` is closed at most once, and only by the relay after its
loop has ended with every result it received handed to the arbiter; the
coordinator closes `genericOutputChan` only after it has observed that
closure; once past `<-outChan` the arbiter has returned; and when the summary
is written the coordinator has returned, the arbiter has returned and can take
no further step, and the summary is the last write. -/
theorem C8_shutdown_order (env : Env) (fl : Flags) (args : List String) (s : State)
    (h : Reachable env fl args s) :
    s.waitCloses ≤ 1 ∧
    (0 < s.waitCloses → s.relay = Relay.done ∧ s.resultClosed = true ∧
      s.produced.map (written env) = resultTexts s.out ++ s.arbiter.heldResult.map printed) ∧
    (s.genericClosed = true → 0 < s.waitCloses ∧ s.main.sawWait = true) ∧
    (s.main.sawOut = true →
      s.arbiter = Arbiter.returned ∧ s.outClosed = true ∧ s.genericClosed = true) ∧
    (∀ w ∈ s.out, w.kind = Kind.summary →
      s.main = Coordinator.returned ∧ s.arbiter = Arbiter.returned ∧
      s.out.getLast? = some w ∧ summaries s.out = [w] ∧
      step env Action.selectResult s = none ∧ step env Action.selectProgress s = none ∧
      step env Action.selectWait s = none ∧ step env Action.arbiter s = none) := by
  have inv := inv_reachable h
  refine ⟨inv.waitCloses_le, ?_, ?_, ?_, ?_⟩
  · intro hw
    have hd := inv.relayDone hw
    refine ⟨hd, inv.relayEnded (by simp [hd, Relay.ended]), ?_⟩
    have hr := inv.results
    rw [hd] at hr
    simpa [Relay.held] using hr
  · intro hg
    have hc : s.main.closedGeneric = true := by rw [← inv.generic]; exact hg
    have hsw := Coordinator.sawWait_of_closedGeneric _ hc
    have hd := inv.sawWait hsw
    exact ⟨by rw [inv.waitOne hd]; omega, hsw⟩
  · intro ho
    have ha := inv.sawOut ho
    refine ⟨ha, by rw [inv.outClosed]; simp [ha], ?_⟩
    rw [inv.generic]
    exact Coordinator.closedGeneric_of_sawOut _ ho
  · intro w hw hk
    obtain ⟨hmain, hweq⟩ := inv.returned_of_summary hw hk
    have ha : s.arbiter = Arbiter.returned := inv.sawOut (by simp [hmain, Coordinator.sawOut])
    have hl := inv.summaryLast hmain
    rw [← hweq] at hl
    exact ⟨hmain, ha, hl.1, hl.2,
      step_none_of_arbiter_returned env s ha _ (Or.inl rfl),
      step_none_of_arbiter_returned env s ha _ (Or.inr (Or.inr (Or.inl rfl))),
      step_none_of_arbiter_returned env s ha _ (Or.inr (Or.inl rfl)),
      step_none_of_arbiter_returned env s ha _ (Or.inr (Or.inr (Or.inr rfl)))⟩


/-! ## Erase before every arbiter write -/

theorem erasedWrites_split (l pre post : List Write) (w : Write) (prev : Bool)
    (he : erasedWrites prev l = true) (hl : l = pre ++ w :: post)
    (hw : w ≠ clearLine Writer.arbiter) :
    (pre = [] ∧ prev = true) ∨ ∃ pre', pre = pre' ++ [clearLine Writer.arbiter] := by
  induction pre generalizing l prev with
  | nil =>
    subst hl
    simp [erasedWrites, hw] at he
    exact Or.inl ⟨rfl, he.1⟩
  | cons x xs ih =>
    subst hl
    by_cases hx : x = clearLine Writer.arbiter
    · simp only [List.cons_append, erasedWrites, hx, if_true] at he
      rcases ih (xs ++ w :: post) true he rfl with ⟨hnil, _⟩ | ⟨pre', hp⟩
      · exact Or.inr ⟨[], by simp [hnil, hx]⟩
      · exact Or.inr ⟨x :: pre', by simp [hp]⟩
    · simp only [List.cons_append, erasedWrites, hx, if_false, Bool.and_eq_true] at he
      rcases ih (xs ++ w :: post) false he.2 rfl with ⟨_, hf⟩ | ⟨pre', hp⟩
      · simp at hf
      · exact Or.inr ⟨x :: pre', by simp [hp]⟩

/-- C9: in the sequence of writes the arbiter has made, every result line and
every progress line comes right after an erase of the arbiter, and that erase
writes `ESC[2K` followed by a carriage return. -/
theorem C9_erase_before_write (env : Env) (fl : Flags) (args : List String) (s : State)
    (h : Reachable env fl args s) :
    (clearLine Writer.arbiter).text = "\x1b[2K\r" ∧
    ∀ pre w post, arbiterWrites s.out = pre ++ w :: post →
      (w.kind = Kind.result ∨ w.kind = Kind.progress) →
      ∃ pre', pre = pre' ++ [clearLine Writer.arbiter] := by
  have inv := inv_reachable h
  refine ⟨by decide, ?_⟩
  intro pre w post hsplit hk
  have hw : w ≠ clearLine Writer.arbiter := by
    intro heq
    rw [heq] at hk
    simp at hk
  rcases erasedWrites_split _ pre post w false inv.erased hsplit hw with ⟨_, hf⟩ | hp
  · simp at hf
  · exact hp

/-! ## The summary count -/

/-- C5 (amended): the number in the final summary is `len(results)`, the
length of the list `scanner.Scan()` returned without error; the relay keeps no
count. When the summary is written, the number of result lines on the display
is the number of results the relay received. -/
theorem C5_summary_is_scan_length (env : Env) (fl : Flags) (args : List String) (s : State)
    (h : Reachable env fl args s) :
    ∀ w ∈ s.out, w.kind = Kind.summary →
      (∃ results, s.scan = some (results, none) ∧ w = summaryWrite env results.length) ∧
      (resultTexts s.out).length = s.produced.length := by
  have inv := inv_reachable h
  intro w hw hk
  obtain ⟨hmain, hweq⟩ := inv.returned_of_summary hw hk
  have ha : s.arbiter = Arbiter.returned := inv.sawOut (by simp [hmain, Coordinator.sawOut])
  have herr := inv.succeeded (by simp [hmain, Coordinator.failed])
  have hsc := inv.scanned (by simp [hmain])
  refine ⟨?_, by simp [inv.all_written ha]⟩
  cases hscan : s.scan with
  | none => exact absurd hscan hsc
  | some p =>
    obtain ⟨results, err⟩ := p
    simp only [State.err, hscan] at herr
    subst herr
    exact ⟨results, rfl, by simp [hweq, State.resultCount, hscan]⟩

/-! ## The error branch -/

theorem step_of_recovered (env : Env) (a : Action) (s t : State)
    (hc : s.coalescer = Coalescer.recovered) (hs : step env a s = some t) :
    t.coalescer = Coalescer.recovered ∧
      (t.taken = s.taken ∨ (s.genericClosed = true ∧ t.taken = s.taken ++ [""])) := by
  unfold step at hs
  split at hs
  · simp at hs
  · cases a <;>
      simp only [stepRelay, stepCoalescer, stepSelect, stepArbiter, stepMain, stepEngine] at hs <;>
      (repeat' split at hs) <;> simp at hs <;> subst hs <;> simp_all

/-- C3 (amended): a coalescer that is at its send on `genericOutputChan` when
the channel is closed does attempt the send: its next step is the panic caught
by the deferred `recover()`, which ends the goroutine. The coalescer is in
that recovered state only after the coordinator has closed the channel; from
then on it takes no step, stays recovered, and the arbiter receives from the
channel nothing but the empty string of a closed channel. -/
theorem C3_send_on_closed_is_recovered (env : Env) (fl : Flags) (args : List String)
    (s : State) (h : Reachable env fl args s) :
    (∀ line, s.coalescer = Coalescer.sending line → s.genericClosed = true →
      s.main.isExited = false →
      step env Action.coalescer s = some { s with coalescer := Coalescer.recovered }) ∧
    (s.coalescer = Coalescer.recovered →
      s.genericClosed = true ∧ step env Action.coalescer s = none ∧
      ∀ a t, step env a s = some t →
        t.coalescer = Coalescer.recovered ∧
        (t.taken = s.taken ∨ t.taken = s.taken ++ [""])) := by
  have inv := inv_reachable h
  refine ⟨?_, ?_⟩
  · intro line hc hg hx
    simp [step, stepCoalescer, hc, hg, hx]
  · intro hc
    refine ⟨inv.recovered hc, ?_, ?_⟩
    · simp [step, stepCoalescer, hc]
    · intro a t hs
      obtain ⟨h1, h2⟩ := step_of_recovered env a s t hc hs
      exact ⟨h1, h2.imp id (fun x => x.2)⟩

/-! ## The outer select -/

/-- C6 (amended): when the arbiter is at its outer `select` with a result line
ready on `importantOutputChan` and a progress line ready on
`genericOutputChan`, both cases can be taken. If the progress case is taken
the progress line is erased-and-written while the relay is still blocked
sending the result. -/
theorem C6_select_without_priority (env : Env) (s : State) (result progress : String)
    (hx : s.main.isExited = false) (ha : s.arbiter = Arbiter.selecting)
    (hr : s.relay = Relay.sending result) (hc : s.coalescer = Coalescer.sending progress)
    (hg : s.genericClosed = false) :
    step env Action.selectResult s =
      some { s with relay := Relay.ranging, arbiter := Arbiter.resultClear result } ∧
    run env [Action.selectProgress, Action.arbiter, Action.arbiter] s =
      some { s with
        relay := Relay.sending result
        coalescer := Coalescer.ranging
        arbiter := Arbiter.selecting
        taken := s.taken ++ [progress]
        out := s.out ++ [clearLine Writer.arbiter,
          ⟨Writer.arbiter, Kind.progress, printed progress⟩] } := by
  refine ⟨?_, ?_⟩
  · simp [step, stepSelect, hx, ha, hr]
  · simp [run, step, stepSelect, stepArbiter, hx, ha, hc, hg, hr]

/-! ## Flush-then-drain -/

/-- C7: after its `clearLine()` in the result case the arbiter writes the
result and enters the `FLUSH` loop. A round of that loop never blocks and
writes nothing: a progress line that is ready is received and dropped (it is
not among the values taken at the outer `select`), and the loop goes on unless
the line is empty; when the channel is closed, or no sender is ready, the
round ends the loop and the arbiter is back at its outer `select`. The
progress lines on the display are, in order, a prefix of the values taken at
the outer `select`. -/
theorem C7_flush_then_drain (env : Env) (fl : Flags) (args : List String) (s : State)
    (h : Reachable env fl args s) (hx : s.main.isExited = false) :
    (∀ output, s.arbiter = Arbiter.resultPrint output →
      step env Action.arbiter s = some { s with
        out := s.out ++ [⟨Writer.arbiter, Kind.result, printed output⟩]
        arbiter := Arbiter.flushing }) ∧
    (s.arbiter = Arbiter.flushing →
      (∃ t, step env Action.arbiter s = some t ∧ t.out = s.out ∧ t.taken = s.taken ∧
        (t.arbiter = Arbiter.flushing ∨ t.arbiter = Arbiter.selecting)) ∧
      (s.genericClosed = true →
        step env Action.arbiter s = some { s with arbiter := Arbiter.selecting }) ∧
      (s.genericClosed = false → ∀ str, s.coalescer = Coalescer.sending str →
        step env Action.arbiter s = some { s with
          coalescer := Coalescer.ranging
          arbiter := if str = "" then Arbiter.selecting else Arbiter.flushing }) ∧
      (s.genericClosed = false → (∀ str, s.coalescer ≠ Coalescer.sending str) →
        step env Action.arbiter s = some { s with arbiter := Arbiter.selecting })) ∧
    progressTexts s.out <+: s.taken.map printed := by
  have inv := inv_reachable h
  refine ⟨?_, ?_, ⟨_, inv.progress.symm⟩⟩
  · intro output ha
    simp [step, stepArbiter, hx, ha]
  · intro ha
    have hclosed : s.genericClosed = true →
        step env Action.arbiter s = some { s with arbiter := Arbiter.selecting } := by
      intro hg
      simp [step, stepArbiter, hx, ha, hg]
    have hready : s.genericClosed = false → ∀ str, s.coalescer = Coalescer.sending str →
        step env Action.arbiter s = some { s with
          coalescer := Coalescer.ranging
          arbiter := if str = "" then Arbiter.selecting else Arbiter.flushing } := by
      intro hg str hc
      simp [step, stepArbiter, hx, ha, hg, hc]
    have hidle : s.genericClosed = false → (∀ str, s.coalescer ≠ Coalescer.sending str) →
        step env Action.arbiter s = some { s with arbiter := Arbiter.selecting } := by
      intro hg hc
      cases hco : s.coalescer with
      | sending str => exact absurd hco (hc str)
      | _ => simp [step, stepArbiter, hx, ha, hg, hco]
    refine ⟨?_, hclosed, hready, hidle⟩
    cases hg : s.genericClosed with
    | true => exact ⟨_, hclosed hg, rfl, rfl, Or.inr rfl⟩
    | false =>
      by_cases hc : ∃ str, s.coalescer = Coalescer.sending str
      · obtain ⟨str, hc⟩ := hc
        refine ⟨_, hready hg str hc, rfl, rfl, ?_⟩
        by_cases hs : str = "" <;> simp [hs]
      · exact ⟨_, hidle hg (fun str hs => hc ⟨str, hs⟩), rfl, rfl, Or.inr rfl⟩

/-! ## What `fmt.Printf(output)` writes -/

theorem doPrintf_of_no_percent (cs : List Char) (n : Nat) (hn : cs.length ≤ n)
    (h : '%' ∉ cs) : doPrintf n cs [] = cs := by
  induction cs generalizing n with
  | nil => cases n <;> simp [doPrintf]
  | cons c rest ih =>
    cases n with
    | zero => simp at hn
    | succ m =>
      have hc : c ≠ '%' := fun e => h (by simp [e])
      have hr : '%' ∉ rest := fun e => h (by simp [e])
      have hm : rest.length ≤ m := by simpa using hn
      simp [doPrintf, hc, ih m hm hr]

theorem printed_of_no_percent (output : String) (h : '%' ∉ output.data) :
    printed output = output := by
  obtain ⟨cs⟩ := output
  have hcs : doPrintf cs.length cs [] = cs := doPrintf_of_no_percent cs _ (le_refl _) h
  show String.mk (doPrintf cs.length cs []) = String.mk cs
  rw [hcs]


/-! ## The claims at concrete runs -/

set_option maxRecDepth 100000

theorem demoInit_start : start plainEnv demoFlags demoArgs = some demoInit := by
  decide

theorem reachable_demoState (acts : List Action)
    (h : run plainEnv acts demoInit = some (demoState acts)) :
    Reachable plainEnv demoFlags demoArgs (demoState acts) :=
  ⟨demoInit, acts, demoInit_start, h⟩

theorem fullRun_runs : run plainEnv fullRun demoInit = some (demoState fullRun) := by
  decide

theorem fullRun_out : (demoState fullRun).out.map Write.text =
    [demoBanner,
     "\x1b[2K\r", "Checking http://h/admin...",
     "\x1b[2K\r", "[200] http://h/admin\n",
     "\x1b[2K\r", "[301] http://h/backup\n",
     "\x1b[2K\r", "\nScan complete. 2 results found.\n\n"] := by
  decide

theorem afterPanicRun_runs :
    run plainEnv afterPanicRun demoInit = some (demoState afterPanicRun) := by
  decide

theorem flushRun_runs : run plainEnv flushRun demoInit = some (demoState flushRun) := by
  decide

/-- C4 (amended) at concrete inputs: with status codes `200`, `2x`, `y` and a
target URL the command exits with code 1 naming `2x`; with status codes `200`,
`301` the scanner is created with the codes 200 and 301. -/
theorem C4_status_codes_when_url_parses_witness :
    setup plainEnv badFlags ["http://h"] = Setup.exit 1
      [⟨Writer.coordinator, Kind.error, "Error: Invalid status code entered: 2x.\n"⟩] ∧
    setup plainEnv demoFlags demoArgs =
      Setup.scan demoOptions [⟨Writer.coordinator, Kind.banner, demoBanner⟩] ∧
    demoOptions.PositiveStatusCodes = [200, 301] ∧
    demoFlags.statusCodes.map Atoi = demoOptions.PositiveStatusCodes.map some :=
  ⟨((C4_status_codes_when_url_parses plainEnv badFlags ["http://h"]).2.1
      "http://h" [] ⟨"http://h"⟩ ["200"] "2x" ["y"] rfl rfl rfl (by decide) (by decide)).trans
      (by decide),
   by decide, rfl,
   (C4_status_codes_when_url_parses plainEnv demoFlags demoArgs).2.2.2 (fun _ => rfl)
      demoOptions [⟨Writer.coordinator, Kind.banner, demoBanner⟩] (by decide)⟩

/-- C4 as stated fails. With the status codes `200`, `2x`, `y` and no target
URL argument the command exits with code 1 on the missing URL, without naming
`2x`. With no status-code argument and an `Inherit` that fills in a code, the
scanner is created with the code 200 while the list of parsed arguments is
empty. -/
theorem C4_url_checked_first_counterexample :
    badFlags.statusCodes = ["200", "2x", "y"] ∧ Atoi "2x" = none ∧
    setup plainEnv badFlags [] = Setup.exit 1
      [⟨Writer.coordinator, Kind.error, "Error: You must specify a target URL.\n"⟩] ∧
    noCodeFlags.statusCodes.map Atoi = [] ∧
    (setup defaultingEnv noCodeFlags demoArgs).codes = some [200] := by
  decide

/-- Values of `strconv.Atoi`: signs, the bounds of a 64-bit `int`, and
rejected strings. -/
theorem Atoi_values :
    Atoi "200" = some 200 ∧ Atoi "301" = some 301 ∧ Atoi "0404" = some 404 ∧
    Atoi "-12" = some (-12) ∧ Atoi "+7" = some 7 ∧
    Atoi "9223372036854775807" = some 9223372036854775807 ∧
    Atoi "9223372036854775808" = none ∧
    Atoi "-9223372036854775808" = some (-9223372036854775808) ∧
    Atoi "-9223372036854775809" = none ∧
    Atoi "" = none ∧ Atoi "-" = none ∧ Atoi "2x" = none ∧ Atoi " 200" = none ∧
    Atoi "1_000" = none ∧ Atoi "0x10" = none := by
  decide

/-- Values of `fmt.Sprintf` on formats without operand, as listed in the
documentation of `fmt`, and on the formats of `url.go`. -/
theorem Sprintf_values :
    Sprintf "hi%d" [] = "hi%!d(MISSING)" ∧ Sprintf "%" [] = "%!(NOVERB)" ∧
    Sprintf "100%%" [] = "100%" ∧ Sprintf "%." [] = "%!.(MISSING)" ∧
    Sprintf "a%20b" [] = "a%!b(MISSING)" ∧
    Sprintf "Checking %s..." [Arg.str "/x"] = "Checking /x..." ∧
    Sprintf "[%d] %s\n" [Arg.int 200, Arg.str "/x"] = "[200] /x\n" := by
  decide

/-- C3 as stated fails: the coalescer is at its send on `genericOutputChan`
when the coordinator, having observed the completion signal, closes the
channel; the coalescer's next step is the send on the closed channel, whose
panic is recovered. -/
theorem C3_send_after_close_counterexample :
    run plainEnv closeRun demoInit = some (demoState closeRun) ∧
    (demoState closeRun).coalescer = Coalescer.sending "Checking http://h/admin..." ∧
    (demoState closeRun).genericClosed = true ∧
    (demoState closeRun).main = Coordinator.awaitOut ∧
    run plainEnv panicRun demoInit = some (demoState panicRun) ∧
    (demoState panicRun).coalescer = Coalescer.recovered := by
  decide

/-- C3 (amended) at a concrete run: the coalescer has recovered from its send
on the closed channel, and takes no further step. -/
theorem C3_send_on_closed_is_recovered_witness :
    Reachable plainEnv demoFlags demoArgs (demoState afterPanicRun) ∧
    (demoState afterPanicRun).coalescer = Coalescer.recovered ∧
    (demoState afterPanicRun).genericClosed = true ∧
    step plainEnv Action.coalescer (demoState afterPanicRun) = none :=
  ⟨reachable_demoState afterPanicRun afterPanicRun_runs, by decide,
   ((C3_send_on_closed_is_recovered plainEnv demoFlags demoArgs (demoState afterPanicRun)
      (reachable_demoState afterPanicRun afterPanicRun_runs)).2 (by decide)).1,
   ((C3_send_on_closed_is_recovered plainEnv demoFlags demoArgs (demoState afterPanicRun)
      (reachable_demoState afterPanicRun afterPanicRun_runs)).2 (by decide)).2.1⟩

/-- C5 as stated fails: the relay has received one result and its line is on
the display, `Scan` returned an empty list, and the summary reports 0. -/
theorem C5_summary_count_counterexample :
    run plainEnv miscountRun demoInit = some (demoState miscountRun) ∧
    (demoState miscountRun).produced = [adminResult] ∧
    resultTexts (demoState miscountRun).out = ["[200] http://h/admin\n"] ∧
    (demoState miscountRun).scan = some ([], none) ∧
    (summaries (demoState miscountRun).out).map Write.text
      = ["\nScan complete. 0 results found.\n\n"] := by
  decide

/-- C5 (amended) at the successful concrete run: `Scan` returned two URLs and
the summary reports 2. -/
theorem C5_summary_is_scan_length_witness :
    Reachable plainEnv demoFlags demoArgs (demoState fullRun) ∧
    summaryWrite plainEnv 2 ∈ (demoState fullRun).out ∧
    (summaryWrite plainEnv 2).text = "\nScan complete. 2 results found.\n\n" ∧
    ((∃ results, (demoState fullRun).scan = some (results, none) ∧
        summaryWrite plainEnv 2 = summaryWrite plainEnv results.length) ∧
      (resultTexts (demoState fullRun).out).length = (demoState fullRun).produced.length) :=
  ⟨reachable_demoState fullRun fullRun_runs, by decide, by decide,
   C5_summary_is_scan_length plainEnv demoFlags demoArgs (demoState fullRun)
     (reachable_demoState fullRun fullRun_runs) (summaryWrite plainEnv 2) (by decide) rfl⟩

/-- C6 as stated fails: the arbiter is at its outer `select` with a result line
and a progress line both ready; it takes the progress case and writes the
progress line while the result line still waits. -/
theorem C6_progress_taken_counterexample :
    run plainEnv raceRun demoInit = some (demoState raceRun) ∧
    (demoState raceRun).arbiter = Arbiter.selecting ∧
    (demoState raceRun).relay = Relay.sending "[200] http://h/admin\n" ∧
    (demoState raceRun).coalescer = Coalescer.sending "Checking http://h/b..." ∧
    run plainEnv raceProgressRun demoInit = some (demoState raceProgressRun) ∧
    (demoState raceProgressRun).relay = Relay.sending "[200] http://h/admin\n" ∧
    (demoState raceProgressRun).out.map Write.text =
      [demoBanner, "\x1b[2K\r", "Checking http://h/a...",
       "\x1b[2K\r", "Checking http://h/b..."] := by
  decide

/-- C6 (amended) at the concrete race: both cases of the `select` can be
taken. -/
theorem C6_select_without_priority_witness :
    (demoState raceRun).main.isExited = false ∧
    (demoState raceRun).arbiter = Arbiter.selecting ∧
    (demoState raceRun).relay = Relay.sending "[200] http://h/admin\n" ∧
    (demoState raceRun).coalescer = Coalescer.sending "Checking http://h/b..." ∧
    (demoState raceRun).genericClosed = false ∧
    step plainEnv Action.selectResult (demoState raceRun) =
      some { demoState raceRun with
        relay := Relay.ranging
        arbiter := Arbiter.resultClear "[200] http://h/admin\n" } :=
  ⟨by decide, by decide, by decide, by decide, by decide,
   (C6_select_without_priority plainEnv (demoState raceRun) "[200] http://h/admin\n"
      "Checking http://h/b..." (by decide) (by decide) (by decide) (by decide)
      (by decide)).1⟩

/-- C7 at a concrete run: the arbiter is in the `FLUSH` loop with a progress
line ready; its next step receives the line, writes nothing and stays in the
loop. -/
theorem C7_flush_then_drain_witness :
    Reachable plainEnv demoFlags demoArgs (demoState flushRun) ∧
    (demoState flushRun).main.isExited = false ∧
    (demoState flushRun).arbiter = Arbiter.flushing ∧
    (demoState flushRun).coalescer = Coalescer.sending "Checking http://h/a..." ∧
    step plainEnv Action.arbiter (demoState flushRun) =
      some { demoState flushRun with
        coalescer := Coalescer.ranging
        arbiter := if "Checking http://h/a..." = "" then Arbiter.selecting
          else Arbiter.flushing } :=
  ⟨reachable_demoState flushRun flushRun_runs, by decide, by decide, by decide,
   ((C7_flush_then_drain plainEnv demoFlags demoArgs (demoState flushRun)
      (reachable_demoState flushRun flushRun_runs) (by decide)).2.1 (by decide)).2.2.1
      (by decide) "Checking http://h/a..." (by decide)⟩

/-- C8 at the successful concrete run: `waitChan` was closed once, and the
summary is the last write, made after the arbiter returned. -/
theorem C8_shutdown_order_witness :
    Reachable plainEnv demoFlags demoArgs (demoState fullRun) ∧
    (demoState fullRun).waitCloses = 1 ∧
    summaryWrite plainEnv 2 ∈ (demoState fullRun).out ∧
    (demoState fullRun).main = Coordinator.returned ∧
    (demoState fullRun).arbiter = Arbiter.returned ∧
    (demoState fullRun).out.getLast? = some (summaryWrite plainEnv 2) :=
  ⟨reachable_demoState fullRun fullRun_runs, by decide, by decide,
   ((C8_shutdown_order plainEnv demoFlags demoArgs (demoState fullRun)
      (reachable_demoState fullRun fullRun_runs)).2.2.2.2
      (summaryWrite plainEnv 2) (by decide) rfl).1,
   ((C8_shutdown_order plainEnv demoFlags demoArgs (demoState fullRun)
      (reachable_demoState fullRun fullRun_runs)).2.2.2.2
      (summaryWrite plainEnv 2) (by decide) rfl).2.1,
   ((C8_shutdown_order plainEnv demoFlags demoArgs (demoState fullRun)
      (reachable_demoState fullRun fullRun_runs)).2.2.2.2
      (summaryWrite plainEnv 2) (by decide) rfl).2.2.1⟩

/-- C9 at the successful concrete run: the arbiter's writes are erase, progress
line, erase, result line, erase, result line, and the second result line comes
right after an erase. -/
theorem C9_erase_before_write_witness :
    Reachable plainEnv demoFlags demoArgs (demoState fullRun) ∧
    (arbiterWrites (demoState fullRun).out).map Write.text =
      ["\x1b[2K\r", "Checking http://h/admin...", "\x1b[2K\r", "[200] http://h/admin\n",
       "\x1b[2K\r", "[301] http://h/backup\n"] ∧
    ∃ pre', (arbiterWrites (demoState fullRun).out).take 5 = pre' ++ [clearLine Writer.arbiter] :=
  ⟨reachable_demoState fullRun fullRun_runs, by decide,
   (C9_erase_before_write plainEnv demoFlags demoArgs (demoState fullRun)
      (reachable_demoState fullRun fullRun_runs)).2
      ((arbiterWrites (demoState fullRun).out).take 5)
      ⟨Writer.arbiter, Kind.result, "[301] http://h/backup\n"⟩ [] (by decide)
      (Or.inl rfl)⟩

/-- C10 fails on the code: the progress notice of `http://h/a%20b` is rendered
as `Checking http://h/a%20b...`, but `fmt.Printf(output)` takes the line as a
format and writes `Checking http://h/a%!b(MISSING)...`; a result line with the
same URL is rewritten in the same way. -/
theorem C10_percent_is_reformatted :
    progressLine plainEnv "http://h/a%20b" = "Checking http://h/a%20b..." ∧
    run plainEnv percentRun demoInit = some (demoState percentRun) ∧
    (demoState percentRun).taken = ["Checking http://h/a%20b..."] ∧
    progressTexts (demoState percentRun).out = ["Checking http://h/a%!b(MISSING)..."] ∧
    resultLine plainEnv ⟨200, ⟨"http://h/a%20b"⟩⟩ = "[200] http://h/a%20b\n" ∧
    written plainEnv ⟨200, ⟨"http://h/a%20b"⟩⟩ = "[200] http://h/a%!b(MISSING)\n" := by
  decide


end Scout
